import Mathlib

/-!
Verification development for the Agentx document question-answering
assistant.  The definitions below are a shallow embedding of the
repository's RAG orchestration core: the ChromaDB vector-store manager
(`src/services/vector_database.py`), the document upload pipeline
(`src/pipelines/document_pipeline.py`), the retrieval tool
(`src/tools/rag.py`) and the grounding tool (`src/tools/grounding.py`).

Machine floats are modelled as exact rationals, Python strings as Lean
strings (with character-list helpers mirroring the Python `str`
operations used by the code), and the external ChromaDB collection as a
key-addressed record store with upsert semantics, which is the contract
the spec assigns to the vector index backend.
-/

namespace Agentx

/-! ## Python string primitives

Character-list implementations of the `str` operations the source uses:
`replace`, `strip`, `lower`, the substring test (`in`), `os.path.normpath`,
`os.path.basename` and `os.path.splitext`.  They are written over
`List Char` so that every theorem witness can be evaluated by `decide`. -/

/-- Python whitespace characters recognised by `str.strip()`. -/
def pySpace (c : Char) : Bool :=
  c = ' ' || c = '\t' || c = '\n' || c = '\r' || c = '\x0b' || c = '\x0c'

/-- `str.strip()` on a character list: drop whitespace at both ends. -/
def stripList (l : List Char) : List Char :=
  ((l.dropWhile pySpace).reverse.dropWhile pySpace).reverse

/-- `str.strip()`. -/
def pyStrip (s : String) : String :=
  String.mk (stripList s.data)

/-- `str.replace(pat, rep)` on character lists: replace every
occurrence of `pat` (left to right, non-overlapping), consuming at
least one character per step, so a fuel of the list length is exact.
The empty-pattern case never arises in the source (`pat` is always
`"_duplicate"`) and is mapped to the identity. -/
def replaceListFuel (pat rep : List Char) : Nat → List Char → List Char
  | 0, l => l
  | _, [] => []
  | fuel + 1, c :: rest =>
    if pat ≠ [] ∧ pat.isPrefixOf (c :: rest) then
      rep ++ replaceListFuel pat rep fuel ((c :: rest).drop pat.length)
    else
      c :: replaceListFuel pat rep fuel rest

/-- `str.replace(pat, rep)` on character lists. -/
def replaceList (pat rep l : List Char) : List Char :=
  replaceListFuel pat rep l.length l

/-- `str.replace(pat, rep)`. -/
def pyReplace (s pat rep : String) : String :=
  String.mk (replaceList pat.data rep.data s.data)

/-- Python's substring test `pat in s` on character lists. -/
def containsSub (l pat : List Char) : Bool :=
  pat.isPrefixOf l ||
    match l with
    | [] => false
    | _ :: rest => containsSub rest pat

/-- Python's substring test `pat in s`. -/
def pyIn (pat s : String) : Bool :=
  containsSub s.data pat.data

/-- `str.lower()` (the source only lowercases ASCII file names). -/
def pyLower (s : String) : String :=
  String.mk (s.data.map Char.toLower)

/-- Split a character list on a separator character (Python
`str.split(sep)` for a one-character separator). -/
def splitListBy (sep : Char) : List Char → List (List Char)
  | [] => [[]]
  | c :: rest =>
    match splitListBy sep rest with
    | [] => if c = sep then [[], []] else [[c]]
    | g :: gs => if c = sep then [] :: g :: gs else (c :: g) :: gs

/-- `os.path.normpath` for POSIX paths, as implemented in CPython's
`posixpath.normpath`: collapse repeated separators, resolve `.` and
`..` components, preserve one or exactly two leading slashes. -/
def pyNormpath (path : String) : String :=
  if path = "" then "." else
  let initialSlashes : Nat :=
    if path.startsWith "/" then
      (if path.startsWith "//" && !(path.startsWith "///") then 2 else 1)
    else 0
  let comps := (splitListBy '/' path.data).map String.mk
  let newComps := comps.foldl
    (fun acc comp =>
      if comp = "" || comp = "." then acc
      else if comp ≠ ".." || (initialSlashes = 0 && acc = []) ||
              (acc ≠ [] && acc.getLast? = some "..") then acc ++ [comp]
      else if acc ≠ [] then acc.dropLast
      else acc) []
  let joined := String.join (List.replicate initialSlashes "/") ++
    String.intercalate "/" newComps
  if joined = "" then "." else joined

/-- `os.path.basename` for POSIX paths: the part after the last slash. -/
def pyBasename (s : String) : String :=
  match (splitListBy '/' s.data).getLast? with
  | some l => String.mk l
  | none => ""

/-- Index of the last occurrence of a character in a list, if any. -/
def lastIdxOf (c : Char) (l : List Char) : Option Nat :=
  (l.enum.filter (fun p => p.2 = c)).getLast?.map (·.1)

/-- `os.path.splitext`, following CPython's `genericpath._splitext`:
the extension starts at the last dot of the basename, provided some
character of the basename before that dot is not itself a dot (so
names such as `.bashrc` have no extension).  Returns `(root, ext)`. -/
def pySplitext (p : String) : String × String :=
  let l := p.data
  let sepIdx : Option Nat := lastIdxOf '/' l
  let base := match sepIdx with
    | some i => l.drop (i + 1)
    | none => l
  let baseStart := l.length - base.length
  match lastIdxOf '.' base with
  | none => (p, "")
  | some d =>
    if (base.take d).all (· = '.') then (p, "")
    else (String.mk (l.take (baseStart + d)), String.mk (l.drop (baseStart + d)))

/-- Python `"sep".join(parts)`. -/
def pyJoin (sep : String) : List String → String
  | [] => ""
  | [x] => x
  | x :: y :: rest => x ++ sep ++ pyJoin sep (y :: rest)

/-! ## Python `round` at three decimals

`round(x, 3)` on CPython floats rounds half to even.  Floats are
modelled as exact rationals, so the rounding itself is exact
banker's rounding at the third decimal. -/

/-- Round a rational to the nearest integer, ties to even
(CPython's `round`). -/
def roundHalfEven (x : ℚ) : ℤ :=
  let f := ⌊x⌋
  let r := x - f
  if r < 1/2 then f
  else if 1/2 < r then f + 1
  else if f % 2 = 0 then f else f + 1

/-- Python `round(x, 3)`. -/
def round3 (x : ℚ) : ℚ :=
  (roundHalfEven (x * 1000) : ℚ) / 1000

/-! ## The vector store (`src/services/vector_database.py`)

The ChromaDB collection is modelled as a key-addressed record store:
a list of `(id, record)` pairs with at most one record per id, written
through `upsert`.  Upsert is the contract the spec's external-interface
section assigns to the vector index backend ("persistent key-addressed
store with upsert"), and the mechanism it credits for idempotent
re-indexing.  The `md5` hex digest used by `_generate_doc_id` is an
opaque pure function of its input string and is passed around as a
parameter `h`. -/

/-- A LangChain document as consumed by `ChromaDBManager.add_documents`:
its text plus the `source` metadata entry, absent when the loader did
not record one (the remaining metadata entries are copied through
verbatim by `_extract_metadata` and play no role in the claims). -/
structure PyDoc where
  page_content : String
  metadata_source : Option String
  deriving DecidableEq, Repr

/-- Metadata stored with each record, as enriched by
`ChromaDBManager._extract_metadata`: the timestamp `indexed_at` is the
`datetime.now()` value, threaded in as the parameter `now`. -/
structure Meta where
  source : String
  source_filename : String
  source_extension : String
  indexed_at : String
  text_length : Nat
  deriving DecidableEq, Repr

/-- `ChromaDBManager._extract_metadata`: default a missing source to
`"unknown"`, normalise the path, derive the base filename and
extension, record the timestamp and the text length. -/
def extract_metadata (now : String) (doc : PyDoc) : Meta :=
  let source := pyNormpath (doc.metadata_source.getD "unknown")
  { source := source
    source_filename := pyBasename source
    source_extension := (pySplitext source).2
    indexed_at := now
    text_length := doc.page_content.length }

/-- `ChromaDBManager._generate_doc_id`: the md5 hex digest of
`f"{source}_{chunk_index}_{text[:100]}"`. -/
def generate_doc_id (h : String → String) (text source : String)
    (chunk_index : Nat) : String :=
  h (source ++ "_" ++ toString chunk_index ++ "_" ++ text.take 100)

/-- One stored `EmbeddingRecord`: embedding vector, verbatim chunk
text, and enriched metadata. -/
structure EmbeddingRecord where
  embedding : List ℚ
  document : String
  metadata : Meta
  deriving DecidableEq, Repr

/-- The ChromaDB collection: a key-addressed store of records. -/
abbrev Collection : Type := List (String × EmbeddingRecord)

/-- The ids present in the collection, in storage order. -/
def colKeys (c : Collection) : List String :=
  c.map (·.1)

/-- `collection.count()`. -/
def colCount (c : Collection) : Nat :=
  c.length

/-- Key-addressed insert: overwrite the record stored under `k` when
present, append otherwise. -/
def upsert (c : Collection) (k : String) (v : EmbeddingRecord) : Collection :=
  if k ∈ colKeys c then
    c.map (fun p => if p.1 = k then (k, v) else p)
  else
    c ++ [(k, v)]

/-- Write a batch of `(id, record)` pairs, first to last. -/
def colAdd (c : Collection) (entries : List (String × EmbeddingRecord)) : Collection :=
  entries.foldl (fun acc e => upsert acc e.1 e.2) c

/-- The `(id, record)` pairs generated by the loop body of
`ChromaDBManager.add_documents` for the zipped document/embedding
list, with their global positions.  The source iterates in batches of
`batch_size` (default 100) and generates each id from `i + j`, the
batch offset plus the in-batch index — exactly the global position of
the pair, so the batching is only a regrouping of the same key-ordered
upserts and is embedded as a single indexed pass. -/
def mkEntries (h : String → String) (now : String)
    (pairs : List (PyDoc × List ℚ)) : List (String × EmbeddingRecord) :=
  pairs.enum.map (fun p =>
    let doc := p.2.1
    let meta := extract_metadata now doc
    (generate_doc_id h doc.page_content meta.source p.1,
     { embedding := p.2.2, document := doc.page_content, metadata := meta }))

/-- The `ValueError` message raised on a length mismatch. -/
def mismatchMsg (d e : Nat) : String :=
  "Mismatch: " ++ toString d ++ " documents but " ++ toString e ++ " embeddings"

/-- `ChromaDBManager.add_documents`: return `0` untouched when either
list is empty, raise (here: return `.error`, leaving the collection
untouched — the check precedes every write) on a length mismatch, and
otherwise upsert every generated record and return how many documents
were processed (`total_added` sums the batch lengths, i.e. the length
of the document list). -/
def add_documents (h : String → String) (now : String) (c : Collection)
    (documents : List PyDoc) (embeddings : List (List ℚ)) :
    Collection × Except String Nat :=
  if documents = [] ∨ embeddings = [] then (c, .ok 0)
  else if documents.length ≠ embeddings.length then
    (c, .error (mismatchMsg documents.length embeddings.length))
  else
    (colAdd c (mkEntries h now (documents.zip embeddings)), .ok documents.length)

/-- `ChromaDBManager.delete_by_source`: normalise the path, collect the
ids of every record whose metadata source equals it
(`collection.get(where={"source": source_path})`), return `0` when
there are none, and otherwise delete exactly those ids
(`collection.delete(ids=...)`) and return how many there were. -/
def delete_by_source (c : Collection) (source_path : String) : Collection × Nat :=
  let p := pyNormpath source_path
  let ids := (c.filter (fun e => e.2.metadata.source = p)).map (·.1)
  if ids = [] then (c, 0)
  else (c.filter (fun e => e.1 ∉ ids), ids.length)

/-! ### Similarity search

`ChromaDBManager.query` hands the query embedding to the index, which
returns the `n_results` nearest stored records by ascending distance.
The distance function belongs to the opaque index internals and is a
parameter. -/

/-- Query results in the shape `rag` consumes: the inner (single-query)
lists of `results['ids'][0]`, `results['documents'][0]`,
`results['metadatas'][0]` and `results['distances'][0]`. -/
structure QueryResults where
  ids : List String
  documents : List String
  metadatas : List Meta
  distances : List (Option ℚ)
  deriving DecidableEq, Repr

/-- Insert into a list sorted by a boolean `le`. -/
def insertLe {α : Type} (le : α → α → Bool) (x : α) : List α → List α
  | [] => [x]
  | y :: ys => if le x y then x :: y :: ys else y :: insertLe le x ys

/-- Insertion sort by a boolean `le`. -/
def sortLe {α : Type} (le : α → α → Bool) : List α → List α
  | [] => []
  | x :: xs => insertLe le x (sortLe le xs)

/-- `ChromaDBManager.query` / the spec's `similarity_search`: score
every stored record with the index's distance function, order by
ascending distance, return the first `n` in column form. -/
def colQuery (dist : List ℚ → List ℚ → ℚ) (queryEmbedding : List ℚ)
    (n : Nat) (c : Collection) : QueryResults :=
  let scored := c.map (fun e => (e, dist queryEmbedding e.2.embedding))
  let ranked := (sortLe (fun a b => decide (a.2 ≤ b.2)) scored).take n
  { ids := ranked.map (·.1.1)
    documents := ranked.map (·.1.2.document)
    metadatas := ranked.map (·.1.2.metadata)
    distances := ranked.map (fun e => some e.2) }

/-! ## The retrieval tool (`src/tools/rag.py`)

`rag` embeds the query, asks the collection for the top 3 chunks,
returns the fixed no-results sentinel when the result set is empty, and
otherwise builds the answer around the LLM synthesis with citations
deduplicated by source filename.  The external collaborators — the
query embedding, the index's distance function, the LLM synthesis and
Python's float formatting — enter as parameters. -/

/-- The fixed "no relevant documents" sentinel returned by `rag`. -/
def ragSentinel : String :=
  "I couldn\x27t find any relevant documents to answer your question. Please make sure documents are indexed in the database."

/-- The first element pushed onto `response_parts` of a successful
`rag` answer. -/
def kbHeader : String := "📖 **Knowledge Base Answer:**\n"

/-- The Azure blob URL `rag` derives for a citation from the
configured storage account and container. -/
def docBlobUrl (filename : String) : String :=
  "https://poc123.blob.core.windows.net/accepted/" ++ filename

/-- One citation, as accumulated by the `rag` loop. -/
structure Citation where
  filename : String
  path : String
  blob_url : String
  similarity_score : Option ℚ
  deriving DecidableEq, Repr

/-- One retrieved row, as zipped by `rag` from the result columns:
`(doc_id, text, metadata, distance)`. -/
abbrev RagRow : Type := String × String × Meta × Option ℚ

/-- The citation-building loop of `rag`: walk the retrieved rows in
rank order, keep one citation per `source_filename` (the `seen_sources`
set), record the blob URL and `round(1 - distance, 3)` (or `N/A` when
the distance is missing). -/
def buildCitationsAux : List RagRow → List String → List Citation
  | [], _ => []
  | row :: rest, seen =>
    let fn := row.2.2.1.source_filename
    if fn ∈ seen then buildCitationsAux rest seen
    else
      { filename := fn
        path := row.2.2.1.source
        blob_url := docBlobUrl fn
        similarity_score := row.2.2.2.map (fun d => round3 (1 - d)) } ::
      buildCitationsAux rest (fn :: seen)

/-- Citations of a retrieved row list, starting from an empty
`seen_sources` set. -/
def buildCitations (rows : List RagRow) : List Citation :=
  buildCitationsAux rows []

/-- The markdown source line `rag` renders for one citation, with
`fshow` standing for Python's float formatting. -/
def citationLine (fshow : ℚ → String) (c : Citation) : String :=
  "• [" ++ c.filename ++ "](" ++ c.blob_url ++ ") (Similarity: " ++
    (match c.similarity_score with
     | some q => fshow q
     | none => "N/A") ++ ")"

/-- The response assembly of `rag` after the similarity search: the
sentinel when the (single-query) id list is empty, otherwise the
knowledge-base header, the LLM answer, and — when there are citations —
the sources block, joined with newlines exactly as the source's
`"\n".join(response_parts)`. -/
def rag_response (fshow : ℚ → String) (res : QueryResults)
    (llmAnswer : String) : String :=
  if res.ids.isEmpty then ragSentinel
  else
    let rows := res.ids.zip (res.documents.zip (res.metadatas.zip res.distances))
    let citations := buildCitations rows
    let parts := [kbHeader, llmAnswer] ++
      (if citations.isEmpty then []
       else "\n\n📚 Sources:" :: citations.map (citationLine fshow))
    pyJoin "\n" parts

/-- The `rag` tool end to end: top-3 similarity search against the
collection, then response assembly. -/
def rag (dist : List ℚ → List ℚ → ℚ) (fshow : ℚ → String)
    (queryEmbedding : List ℚ) (c : Collection) (llmAnswer : String) : String :=
  rag_response fshow (colQuery dist queryEmbedding 3 c) llmAnswer

/-! ## The grounding tool (`src/tools/grounding.py`)

Only the response post-processing is embedded; the Perplexity call is
external.  The two `re` operations on the sources section — the
`re.search` that captures the markdown-link block after a `Sources:`
label and the `re.sub` that deletes it — are Python-`re` behaviours and
enter as the parameter `ops`; the `re.findall` that extracts the
`[title](url)` pairs from the captured block is implemented concretely
below.  The citations-array fallback (only reachable when the markdown
extraction produced nothing) is the parameter `fallback`. -/

/-- The results of the two `re` operations `grounding` applies to the
raw answer: `searchSources` is group 1 of the sources-section search
(`None` when there is no match), `subSources` is the answer with the
matched section(s) deleted. -/
structure ReSearchOps where
  searchSources : String → Option String
  subSources : String → String

/-- Match the link pattern of `re.findall(r'\[([^\[\]]+)\]\((https?://[^\)]+)\)', s)`
at the head of the list: a nonempty bracket-free title in square
brackets, immediately followed by a parenthesised URL that starts with
`http://` or `https://` and contains at least one further character and
no closing parenthesis.  Returns the title, the URL and the remainder
after the match. -/
def linkMatch (l : List Char) : Option (String × String × List Char) :=
  match l with
  | '[' :: r =>
    let title := r.takeWhile (fun c => c ≠ ']' && c ≠ '[')
    if title.isEmpty then none
    else
      match r.drop title.length with
      | ']' :: '(' :: r2 =>
        let scheme : Option (List Char) :=
          if "https://".data.isPrefixOf r2 then some "https://".data
          else if "http://".data.isPrefixOf r2 then some "http://".data
          else none
        match scheme with
        | none => none
        | some sch =>
          let r3 := r2.drop sch.length
          let urlRest := r3.takeWhile (fun c => c ≠ ')')
          if urlRest.isEmpty then none
          else
            match r3.drop urlRest.length with
            | ')' :: r5 => some (String.mk title, String.mk (sch ++ urlRest), r5)
            | _ => none
      | _ => none
  | _ => none

/-- Left-to-right non-overlapping scan for markdown links: on a match
continue after it, otherwise shift by one character — the semantics of
`re.findall`.  Every step consumes at least one character, so a fuel of
the list length is exact. -/
def scanLinks : Nat → List Char → List (String × String)
  | 0, _ => []
  | _, [] => []
  | fuel + 1, c :: rest =>
    match linkMatch (c :: rest) with
    | some (t, u, rem) => (t, u) :: scanLinks fuel rem
    | none => scanLinks fuel rest

/-- `re.findall` of the markdown-link pattern over a string. -/
def findMarkdownLinks (s : String) : List (String × String) :=
  scanLinks s.data.length s.data

/-- Number of (possibly overlapping) occurrences of `pat` in `s`. -/
def countOcc (pat : List Char) : List Char → Nat
  | [] => if pat.isEmpty then 1 else 0
  | c :: rest => (if pat.isPrefixOf (c :: rest) then 1 else 0) + countOcc pat rest

/-- Occurrence count on strings. -/
def pyCount (s pat : String) : Nat :=
  countOcc pat.data s.data

/-- The header pushed first onto the grounding response. -/
def webHeader : String := "🌐 **Web Search Answer:**"

/-- The response assembly of `grounding` (source lines 159-261) for a
received answer and raw citation list.  The original `answer` is
appended to `response_parts` before the sources-section handling; the
pair's second component models the local variable `answer` after the
`re.sub` removal and `.strip()` (source lines 189-195), which — as in
the source — is never read again, `response_parts` having already
captured the original string. -/
def grounding_format (ops : ReSearchOps) (fallback : List String → List String)
    (answer : String) (citations : List String) : String :=
  let response_parts := [webHeader, "", answer]
  let extractedAndStripped : List String × String :=
    match ops.searchSources answer with
    | some sources_section =>
      let source_links := findMarkdownLinks sources_section
      ((source_links.enum.map (fun p =>
          "[" ++ toString (p.1 + 1) ++ "] [" ++ p.2.1 ++ "](" ++ p.2.2 ++ ")")),
       pyStrip (ops.subSources answer))
    | none => ([], answer)
  let formatted_sources := extractedAndStripped.1
  let formatted_sources :=
    if formatted_sources.isEmpty && !citations.isEmpty then fallback citations
    else formatted_sources
  let response_parts :=
    if formatted_sources.isEmpty then response_parts
    else response_parts ++ ["", "---", "**📚 Sources:**"] ++ formatted_sources
  pyJoin "\n" response_parts

/-! ## The document pipeline (`src/pipelines/document_pipeline.py`)

The blob storage holds the three logical namespaces `rawdata`,
`accepted` and `rejected`.  The Azure client wrapper
(`src/services/azure_blob_service.py`) is not part of the sources, so
its two operations used here are modelled from the spec: containers
support `put` (overwrite), `copy`+`delete` (move) and `list`.  The
temporary staging file on the local filesystem carries the uploaded
bytes between steps and has no bearing on the claims. -/

/-- Blob storage: the three containers, each a list of blob names
(names are unique within a container; `upload_blob(overwrite=True)`
replaces an existing blob of the same name). -/
structure BlobStore where
  rawdata : List String
  accepted : List String
  rejected : List String
  deriving DecidableEq, Repr

/-- Put a name into a container, overwriting any existing blob of that
name (the name set gains at most one entry). -/
def putBlob (ns : List String) (name : String) : List String :=
  if name ∈ ns then ns else ns ++ [name]

/-- Delete a blob from a container. -/
def delBlob (ns : List String) (name : String) : List String :=
  ns.filter (· ≠ name)

/-- The names stored in a container, addressed as in the source by the
container-name string. -/
def getContainer (bs : BlobStore) (container : String) : List String :=
  if container = "rawdata" then bs.rawdata
  else if container = "accepted" then bs.accepted
  else if container = "rejected" then bs.rejected
  else []

/-- Replace the contents of a container. -/
def setContainer (bs : BlobStore) (container : String) (ns : List String) : BlobStore :=
  if container = "rawdata" then { bs with rawdata := ns }
  else if container = "accepted" then { bs with accepted := ns }
  else if container = "rejected" then { bs with rejected := ns }
  else bs

/-- `DocumentPipeline.upload_to_blob`: upload with `overwrite=True`. -/
def upload_to_blob (bs : BlobStore) (container_name blob_name : String) : BlobStore :=
  setContainer bs container_name (putBlob (getContainer bs container_name) blob_name)

/-- `DocumentPipeline.move_blob_between_containers`: copy the blob to
the destination container (under the optional new name) and delete it
from the source container. -/
def move_blob_between_containers (bs : BlobStore)
    (source_container dest_container blob_name : String)
    (new_blob_name : Option String) : BlobStore :=
  let dest_blob_name := new_blob_name.getD blob_name
  let bs1 := setContainer bs dest_container
    (putBlob (getContainer bs dest_container) dest_blob_name)
  setContainer bs1 source_container
    (delBlob (getContainer bs1 source_container) blob_name)

/-- Modelled from the spec: `AzureBlobManager.list_blob_names_and_files`
(the Azure client wrapper `src/services/azure_blob_service.py` is not
among the sources).  Per the spec's blob-storage contract each
namespace supports `list() -> names`; the call returns a pair of lists
whose second component is the blob file names of the container, and it
may raise, which is modelled by the `Except` result. -/
def acceptedListing (bs : BlobStore) : Except String (List String × List String) :=
  .ok (bs.accepted, bs.accepted)

/-- `DocumentPipeline.check_file_exists_in_accepted`: strip every
`_duplicate` marker and surrounding whitespace from the queried
filename, then report whether the result occurs as a substring of any
listed blob name; any exception from the listing yields `False`. -/
def check_file_exists_in_accepted
    (listing : Except String (List String × List String))
    (filename : String) : Bool :=
  match listing with
  | .error _ => false
  | .ok (_, blob_files) =>
    let base_filename := pyStrip (pyReplace filename "_duplicate" "")
    blob_files.any (fun blob_file => pyIn base_filename blob_file)

/-- The `(success, message, chunks_added)` result contract of
`DocumentPipeline.process_single_file`, which catches every exception
and never raises; the indexing sub-pipeline's outcome enters
`handle_uploaded_file` as this triple. -/
abbrev ProcessResult : Type := Bool × String × Nat

/-- `DocumentPipeline.handle_uploaded_file`: stage the upload in
`rawdata`, run the duplicate check against the accepted listing, route
duplicates to `rejected` under a `_duplicate`-marked name, and move new
files to `accepted` before running the indexing sub-pipeline, whose
result decides the reported success but never the file's container.
Returns the updated store and `(success, message, final_container)`. -/
def handle_uploaded_file (bs : BlobStore) (filename : String)
    (listing : Except String (List String × List String))
    (proc : ProcessResult) : BlobStore × (Bool × String × String) :=
  let file_ext := pyLower (pySplitext filename).2
  let bs1 := upload_to_blob bs "rawdata" filename
  let is_duplicate := check_file_exists_in_accepted listing filename
  if is_duplicate then
    let name_without_ext := (pySplitext filename).1
    let duplicate_filename := name_without_ext ++ "_duplicate" ++ file_ext
    let bs2 := move_blob_between_containers bs1 "rawdata" "rejected"
      filename (some duplicate_filename)
    (bs2, (false,
      "❌ Duplicate file detected! Moved to rejected container as \x27" ++
        duplicate_filename ++ "\x27", "rejected"))
  else
    let bs2 := move_blob_between_containers bs1 "rawdata" "accepted" filename none
    match proc with
    | (true, message, _) => (bs2, (true, "✅ " ++ message, "accepted"))
    | (false, message, _) =>
      (bs2, (false,
        "⚠️  File moved to accepted but RAG processing failed: " ++ message,
        "accepted"))

/-- The duplicate criterion in the words of the claim: the base name
(extension removed), compared case-insensitively, after discarding any
`_duplicate` marker.  Stated for comparison with the source's
`check_file_exists_in_accepted`; not part of the source. -/
def claimBaseName (s : String) : String :=
  pyLower (pySplitext (pyReplace s "_duplicate" "")).1

/-- The claim's duplicate predicate: some accepted entry whose base
name matches the uploaded file's base name, case- and
suffix-insensitively, ignoring `_duplicate` markers. -/
def claimDuplicate (filename : String) (accepted : List String) : Bool :=
  accepted.any (fun entry => claimBaseName entry = claimBaseName filename)

/-- First-occurrence deduplication of a list of names, with the
already-seen accumulator. -/
def dedupFirstAux : List String → List String → List String
  | [], _ => []
  | x :: xs, seen =>
    if x ∈ seen then dedupFirstAux xs seen
    else x :: dedupFirstAux xs (x :: seen)

/-- First-occurrence deduplication of a list of names. -/
def dedupFirst (l : List String) : List String :=
  dedupFirstAux l []

/-- A concrete two-record store used by witnesses. -/
def sampleStore : Collection :=
  [("id1", { embedding := [1], document := "t1",
             metadata := { source := "docs/a.txt", source_filename := "a.txt",
                           source_extension := ".txt", indexed_at := "t",
                           text_length := 2 } }),
   ("id2", { embedding := [2], document := "t2",
             metadata := { source := "docs/b.txt", source_filename := "b.txt",
                           source_extension := ".txt", indexed_at := "t",
                           text_length := 2 } })]

/-- A raw grounding answer that already carries a sources section in
the required markdown-link format. -/
def c4Answer : String :=
  "The sky is blue [1].\n\nSources:\n[NASA](https://nasa.gov/sky)"

/-- The results of the two Python `re` operations of `grounding` at
`c4Answer`: the sources-section search matches, capturing the
markdown-link block, and the substitution removes the whole section
(hand-checked against CPython `re` with the source's patterns and
flags). -/
def c4Ops : ReSearchOps where
  searchSources := fun a =>
    if a = c4Answer then some "[NASA](https://nasa.gov/sky)" else none
  subSources := fun a =>
    if a = c4Answer then "The sky is blue [1]." else a

/-! ## Store lemmas -/

theorem length_colKeys (c : Collection) : (colKeys c).length = colCount c := by
  simp [colKeys, colCount]

theorem colKeys_upsert_of_mem {c : Collection} {k : String}
    (v : EmbeddingRecord) (hk : k ∈ colKeys c) :
    colKeys (upsert c k v) = colKeys c := by
  unfold upsert
  rw [if_pos hk]
  unfold colKeys
  rw [List.map_map]
  refine List.map_congr_left ?_
  intro p _
  by_cases hp : p.1 = k
  · simp [hp]
  · simp [hp]

theorem mem_colKeys_upsert_self (c : Collection) (k : String)
    (v : EmbeddingRecord) : k ∈ colKeys (upsert c k v) := by
  unfold upsert
  by_cases hk : k ∈ colKeys c
  · rw [if_pos hk, show colKeys _ = colKeys c from colKeys_upsert_of_mem v hk ▸ by
      unfold upsert; rw [if_pos hk]]
    exact hk
  · rw [if_neg hk]
    unfold colKeys
    simp

theorem colKeys_upsert_mono {c : Collection} {x : String} (k : String)
    (v : EmbeddingRecord) (hx : x ∈ colKeys c) :
    x ∈ colKeys (upsert c k v) := by
  unfold upsert
  by_cases hk : k ∈ colKeys c
  · rw [if_pos hk, colKeys, List.map_map]
    obtain ⟨p, hp, hpx⟩ := List.mem_map.mp hx
    refine List.mem_map.mpr ⟨p, hp, ?_⟩
    by_cases h1 : p.1 = k
    · simp [h1, h1 ▸ hpx]
    · simp only [Function.comp_apply]
      rw [if_neg h1]
      exact hpx
  · rw [if_neg hk, colKeys]
    simp only [List.map_append]
    exact List.mem_append_left _ hx

theorem colKeys_colAdd_mono {c : Collection} {x : String}
    (entries : List (String × EmbeddingRecord)) (hx : x ∈ colKeys c) :
    x ∈ colKeys (colAdd c entries) := by
  induction entries generalizing c with
  | nil => exact hx
  | cons e es ih => exact ih (colKeys_upsert_mono e.1 e.2 hx)

theorem mem_colKeys_colAdd (c : Collection)
    (entries : List (String × EmbeddingRecord)) :
    ∀ e ∈ entries, e.1 ∈ colKeys (colAdd c entries) := by
  induction entries generalizing c with
  | nil => intro e he; cases he
  | cons e0 es ih =>
    intro e he
    rcases List.mem_cons.mp he with h | h
    · subst h
      exact colKeys_colAdd_mono es (mem_colKeys_upsert_self c e.1 e.2)
    · exact ih (upsert c e0.1 e0.2) e h

theorem colKeys_colAdd_of_mem (c : Collection)
    (entries : List (String × EmbeddingRecord))
    (hall : ∀ e ∈ entries, e.1 ∈ colKeys c) :
    colKeys (colAdd c entries) = colKeys c := by
  induction entries generalizing c with
  | nil => rfl
  | cons e es ih =>
    have h0 : e.1 ∈ colKeys c := hall e (List.mem_cons_self e es)
    have hup : colKeys (upsert c e.1 e.2) = colKeys c :=
      colKeys_upsert_of_mem e.2 h0
    have : colKeys (colAdd (upsert c e.1 e.2) es) = colKeys (upsert c e.1 e.2) := by
      refine ih (upsert c e.1 e.2) ?_
      intro x hx
      rw [hup]
      exact hall x (List.mem_cons_of_mem e hx)
    calc colKeys (colAdd (upsert c e.1 e.2) es)
        = colKeys (upsert c e.1 e.2) := this
      _ = colKeys c := hup

theorem colKeys_mkEntries (h : String → String) (now now2 : String)
    (pairs : List (PyDoc × List ℚ)) :
    (mkEntries h now pairs).map (·.1) = (mkEntries h now2 pairs).map (·.1) := by
  unfold mkEntries
  rw [List.map_map, List.map_map]
  refine List.map_congr_left ?_
  intro p _
  rfl

/-! ## Claim theorems -/

/-- C1: each record id generated by `add_documents` is a deterministic
function of the source path, the chunk ordinal and the first 100
characters of the chunk text, so running `add_documents` a second time
with the identical chunks and vectors upserts the very same ids: the
stored id set is unchanged, the total stored count is unchanged, and
the reported result is the same, whatever the two indexing timestamps
were. -/
theorem C1_add_documents_idempotent (h : String → String) (now1 now2 : String)
    (c : Collection) (documents : List PyDoc) (embeddings : List (List ℚ))
    (hlen : documents.length = embeddings.length) :
    colKeys (add_documents h now2 (add_documents h now1 c documents embeddings).1
        documents embeddings).1 =
      colKeys (add_documents h now1 c documents embeddings).1 ∧
    colCount (add_documents h now2 (add_documents h now1 c documents embeddings).1
        documents embeddings).1 =
      colCount (add_documents h now1 c documents embeddings).1 ∧
    (add_documents h now2 (add_documents h now1 c documents embeddings).1
        documents embeddings).2 =
      (add_documents h now1 c documents embeddings).2 ∧
    ∀ text text2 source : String, ∀ i : Nat, text.take 100 = text2.take 100 →
      generate_doc_id h text source i = generate_doc_id h text2 source i := by
  have hdet : ∀ text text2 source : String, ∀ i : Nat,
      text.take 100 = text2.take 100 →
      generate_doc_id h text source i = generate_doc_id h text2 source i := by
    intro t t2 s i ht
    unfold generate_doc_id
    rw [ht]
  by_cases hemp : documents = [] ∨ embeddings = []
  · have h1 : add_documents h now1 c documents embeddings = (c, .ok 0) := by
      unfold add_documents
      rw [if_pos hemp]
    have h2 : add_documents h now2 c documents embeddings = (c, .ok 0) := by
      unfold add_documents
      rw [if_pos hemp]
    rw [h1, h2]
    exact ⟨rfl, rfl, rfl, hdet⟩
  · have hne : ¬documents.length ≠ embeddings.length := by omega
    have h1 : add_documents h now1 c documents embeddings =
        (colAdd c (mkEntries h now1 (documents.zip embeddings)), .ok documents.length) := by
      unfold add_documents
      rw [if_neg hemp, if_neg hne]
    have h2 : add_documents h now2
        (colAdd c (mkEntries h now1 (documents.zip embeddings))) documents embeddings =
        (colAdd (colAdd c (mkEntries h now1 (documents.zip embeddings)))
          (mkEntries h now2 (documents.zip embeddings)), .ok documents.length) := by
      unfold add_documents
      rw [if_neg hemp, if_neg hne]
    rw [h1, h2]
    have hkeys : colKeys (colAdd (colAdd c (mkEntries h now1 (documents.zip embeddings)))
        (mkEntries h now2 (documents.zip embeddings))) =
        colKeys (colAdd c (mkEntries h now1 (documents.zip embeddings))) := by
      refine colKeys_colAdd_of_mem _ _ ?_
      intro e he
      have hkey : e.1 ∈ (mkEntries h now1 (documents.zip embeddings)).map (·.1) := by
        rw [colKeys_mkEntries h now1 now2 (documents.zip embeddings)]
        exact List.mem_map.mpr ⟨e, he, rfl⟩
      obtain ⟨e1, he1, he1k⟩ := List.mem_map.mp hkey
      exact he1k ▸ mem_colKeys_colAdd c _ e1 he1
    refine ⟨hkeys, ?_, rfl, hdet⟩
    rw [← length_colKeys, ← length_colKeys, hkeys]

/-- Witness for C1 at a concrete store, document and vector. -/
theorem C1_witness :
    ([⟨"hello world", some "docs/a.txt"⟩] : List PyDoc).length =
      ([[1, 2]] : List (List ℚ)).length ∧
    colKeys (add_documents (fun s => s) "t2"
        (add_documents (fun s => s) "t1" [] [⟨"hello world", some "docs/a.txt"⟩]
          [[1, 2]]).1 [⟨"hello world", some "docs/a.txt"⟩] [[1, 2]]).1 =
      colKeys (add_documents (fun s => s) "t1" [] [⟨"hello world", some "docs/a.txt"⟩]
        [[1, 2]]).1 ∧
    colCount (add_documents (fun s => s) "t2"
        (add_documents (fun s => s) "t1" [] [⟨"hello world", some "docs/a.txt"⟩]
          [[1, 2]]).1 [⟨"hello world", some "docs/a.txt"⟩] [[1, 2]]).1 =
      colCount (add_documents (fun s => s) "t1" [] [⟨"hello world", some "docs/a.txt"⟩]
        [[1, 2]]).1 ∧
    (add_documents (fun s => s) "t2"
        (add_documents (fun s => s) "t1" [] [⟨"hello world", some "docs/a.txt"⟩]
          [[1, 2]]).1 [⟨"hello world", some "docs/a.txt"⟩] [[1, 2]]).2 =
      (add_documents (fun s => s) "t1" [] [⟨"hello world", some "docs/a.txt"⟩]
        [[1, 2]]).2 ∧
    ∀ text text2 source : String, ∀ i : Nat, text.take 100 = text2.take 100 →
      generate_doc_id (fun s => s) text source i =
        generate_doc_id (fun s => s) text2 source i :=
  ⟨by decide,
   C1_add_documents_idempotent (fun s => s) "t1" "t2" []
     [⟨"hello world", some "docs/a.txt"⟩] [[1, 2]] (by decide)⟩

/-- C5 counterexample: with an empty document list and a singleton
vector list the two lengths differ, yet `add_documents` reports a
stored count of `0` instead of failing with the shape-mismatch error
(the empty-input early return precedes the length check). -/
theorem C5_counterexample :
    ([] : List PyDoc).length ≠ ([[1]] : List (List ℚ)).length ∧
    add_documents (fun s => s) "t" [] ([] : List PyDoc) ([[1]] : List (List ℚ)) =
      ([], Except.ok 0) := by
  exact ⟨by decide, rfl⟩

/-- C5 (amended): when both the chunk list and the vector list are
nonempty and their lengths differ, `add_documents` fails with the
shape-mismatch error and leaves the store unchanged; when either list
is empty it returns a count of `0` without storing anything; a count is
returned exactly when the lengths agree or one of the lists is empty. -/
theorem C5_shape_mismatch (h : String → String) (now : String) (c : Collection)
    (documents : List PyDoc) (embeddings : List (List ℚ)) :
    (documents ≠ [] → embeddings ≠ [] →
      documents.length ≠ embeddings.length →
      add_documents h now c documents embeddings =
        (c, .error (mismatchMsg documents.length embeddings.length))) ∧
    (documents = [] ∨ embeddings = [] →
      add_documents h now c documents embeddings = (c, .ok 0)) ∧
    ((∃ n, (add_documents h now c documents embeddings).2 = .ok n) ↔
      documents.length = embeddings.length ∨ documents = [] ∨ embeddings = []) := by
  refine ⟨?_, ?_, ?_⟩
  · intro hd he hne
    unfold add_documents
    rw [if_neg (by tauto), if_pos hne]
  · intro hemp
    unfold add_documents
    rw [if_pos hemp]
  · constructor
    · rintro ⟨n, hn⟩
      by_cases hemp : documents = [] ∨ embeddings = []
      · right; exact hemp
      · left
        by_contra hne
        unfold add_documents at hn
        rw [if_neg hemp, if_pos hne] at hn
        cases hn
    · intro hcase
      by_cases hemp : documents = [] ∨ embeddings = []
      · refine ⟨0, ?_⟩
        unfold add_documents
        rw [if_pos hemp]
      · have hlen : documents.length = embeddings.length := by tauto
        refine ⟨documents.length, ?_⟩
        unfold add_documents
        rw [if_neg hemp, if_neg (by omega)]

/-- Witness for C5 (amended) at concrete mismatched nonempty lists. -/
theorem C5_shape_mismatch_witness :
    ([⟨"a", none⟩] : List PyDoc) ≠ [] ∧
    ([[1], [2]] : List (List ℚ)) ≠ [] ∧
    ([⟨"a", none⟩] : List PyDoc).length ≠ ([[1], [2]] : List (List ℚ)).length ∧
    add_documents (fun s => s) "t" [] [⟨"a", none⟩] [[1], [2]] =
      ([], .error (mismatchMsg 1 2)) :=
  ⟨by decide, by decide, by decide,
   (C5_shape_mismatch (fun s => s) "t" [] [⟨"a", none⟩] [[1], [2]]).1
     (by decide) (by decide) (by decide)⟩

/-- With duplicate-free ids, two stored entries with the same id are
the same entry. -/
theorem eq_of_colKeys_nodup {c : Collection} (hnd : (colKeys c).Nodup)
    {a b : String × EmbeddingRecord} (ha : a ∈ c) (hb : b ∈ c)
    (hk : a.1 = b.1) : a = b := by
  induction c with
  | nil => cases ha
  | cons hd tl ih =>
    rw [colKeys, List.map_cons, List.nodup_cons] at hnd
    rcases List.mem_cons.mp ha with ha1 | ha1 <;>
      rcases List.mem_cons.mp hb with hb1 | hb1
    · rw [ha1, hb1]
    · exfalso
      apply hnd.1
      have hbm : b.1 ∈ List.map (fun x => x.1) tl := List.mem_map.mpr ⟨b, hb1, rfl⟩
      rw [← hk, ha1] at hbm
      exact hbm
    · exfalso
      apply hnd.1
      have ham : a.1 ∈ List.map (fun x => x.1) tl := List.mem_map.mpr ⟨a, ha1, rfl⟩
      rw [hk, hb1] at ham
      exact ham
    · exact ih hnd.2 ha1 hb1

theorem length_filter_split {α : Type} (l : List α) (p : α → Bool) :
    (l.filter p).length + (l.filter (fun a => !(p a))).length = l.length := by
  induction l with
  | nil => rfl
  | cons x xs ih =>
    by_cases hx : p x = true
    · simp [List.filter_cons, hx, ← ih]
      omega
    · simp only [Bool.not_eq_true] at hx
      simp [List.filter_cons, hx, ← ih]
      omega

theorem mem_insertLe {α : Type} (le : α → α → Bool) (x a : α) (l : List α)
    (ha : a ∈ insertLe le x l) : a = x ∨ a ∈ l := by
  induction l with
  | nil =>
    rcases List.mem_singleton.mp ha with h
    exact Or.inl h
  | cons y ys ih =>
    unfold insertLe at ha
    by_cases hle : le x y = true
    · rw [if_pos hle] at ha
      rcases List.mem_cons.mp ha with h | h
      · exact Or.inl h
      · exact Or.inr h
    · rw [if_neg hle] at ha
      rcases List.mem_cons.mp ha with h | h
      · exact Or.inr (h ▸ List.mem_cons_self y ys)
      · rcases ih h with h1 | h1
        · exact Or.inl h1
        · exact Or.inr (List.mem_cons_of_mem y h1)

theorem mem_sortLe {α : Type} (le : α → α → Bool) (a : α) (l : List α)
    (ha : a ∈ sortLe le l) : a ∈ l := by
  induction l with
  | nil => cases ha
  | cons x xs ih =>
    unfold sortLe at ha
    rcases mem_insertLe le x a _ ha with h | h
    · exact h ▸ List.mem_cons_self x xs
    · exact List.mem_cons_of_mem x (ih h)

/-- Every metadata entry returned by a similarity query belongs to a
stored record. -/
theorem colQuery_meta_mem (dist : List ℚ → List ℚ → ℚ) (qe : List ℚ)
    (n : Nat) (c : Collection) {m : Meta}
    (hm : m ∈ (colQuery dist qe n c).metadatas) :
    ∃ e ∈ c, e.2.metadata = m := by
  unfold colQuery at hm
  simp only [List.mem_map] at hm
  obtain ⟨x, hx, hxm⟩ := hm
  have hx1 : x ∈ sortLe (fun a b => decide (a.2 ≤ b.2))
      (c.map (fun e => (e, dist qe e.2.embedding))) := List.take_subset n _ hx
  have hx2 := mem_sortLe _ x _ hx1
  obtain ⟨e, he, hex⟩ := List.mem_map.mp hx2
  refine ⟨e, he, ?_⟩
  rw [← hxm, ← hex]

/-- C9: `delete_by_source` removes exactly the records whose metadata
source equals the normalised path and returns their number; the stored
count drops by exactly that number, similarity search can no longer
return a record tagged with that source, and when nothing matches the
store is returned unchanged with a count of `0`. -/
theorem C9_delete_by_source (c : Collection) (source_path : String)
    (hnd : (colKeys c).Nodup) :
    (delete_by_source c source_path).1 =
      c.filter (fun e => ¬e.2.metadata.source = pyNormpath source_path) ∧
    (delete_by_source c source_path).2 =
      (c.filter (fun e => e.2.metadata.source = pyNormpath source_path)).length ∧
    (delete_by_source c source_path).1.length + (delete_by_source c source_path).2 =
      c.length ∧
    (∀ dist : List ℚ → List ℚ → ℚ, ∀ qe : List ℚ, ∀ k : Nat,
      ∀ m ∈ (colQuery dist qe k (delete_by_source c source_path).1).metadatas,
        m.source ≠ pyNormpath source_path) ∧
    ((∀ e ∈ c, e.2.metadata.source ≠ pyNormpath source_path) →
      delete_by_source c source_path = (c, 0)) := by
  have hdel : delete_by_source c source_path =
      if ((c.filter (fun e => e.2.metadata.source = pyNormpath source_path)).map (·.1)) = []
      then (c, 0)
      else (c.filter (fun e =>
              e.1 ∉ (c.filter (fun e => e.2.metadata.source = pyNormpath source_path)).map (·.1)),
            ((c.filter (fun e => e.2.metadata.source = pyNormpath source_path)).map (·.1)).length) :=
    rfl
  have hiff : ∀ e ∈ c,
      (e.1 ∈ (c.filter (fun e => e.2.metadata.source = pyNormpath source_path)).map (·.1) ↔
        e.2.metadata.source = pyNormpath source_path) := by
    intro e he
    constructor
    · intro hmem
      obtain ⟨x, hx, hxe⟩ := List.mem_map.mp hmem
      have hx2 := List.mem_filter.mp hx
      have hxe2 : x = e := eq_of_colKeys_nodup hnd hx2.1 he hxe
      have := hx2.2
      rw [hxe2] at this
      exact of_decide_eq_true this
    · intro hsrc
      exact List.mem_map.mpr
        ⟨e, List.mem_filter.mpr ⟨he, decide_eq_true hsrc⟩, rfl⟩
  by_cases hcase :
      ((c.filter (fun e => e.2.metadata.source = pyNormpath source_path)).map (·.1)) = []
  · have hfil0 : c.filter (fun e => e.2.metadata.source = pyNormpath source_path) = [] := by
      rcases List.map_eq_nil_iff.mp hcase with h
      exact h
    have h1 : delete_by_source c source_path = (c, 0) := by rw [hdel, if_pos hcase]
    have hall : ∀ e ∈ c, ¬e.2.metadata.source = pyNormpath source_path := by
      intro e he
      have := List.filter_eq_nil_iff.mp hfil0 e he
      simpa using this
    have hc1 : (delete_by_source c source_path).1 =
        c.filter (fun e => ¬e.2.metadata.source = pyNormpath source_path) := by
      rw [h1]
      exact (List.filter_eq_self.mpr (fun e he => decide_eq_true (hall e he))).symm
    have hc2 : (delete_by_source c source_path).2 =
        (c.filter (fun e => e.2.metadata.source = pyNormpath source_path)).length := by
      rw [h1, hfil0]
      rfl
    refine ⟨hc1, hc2, ?_, ?_, fun _ => h1⟩
    · rw [h1]
      simp
    · intro dist qe k m hm
      obtain ⟨e, he, hem⟩ := colQuery_meta_mem dist qe k _ hm
      rw [hc1] at he
      have := (List.mem_filter.mp he).2
      rw [← hem]
      simpa using this
  · have h1 : delete_by_source c source_path =
        (c.filter (fun e =>
          e.1 ∉ (c.filter (fun e => e.2.metadata.source = pyNormpath source_path)).map (·.1)),
         ((c.filter (fun e => e.2.metadata.source = pyNormpath source_path)).map (·.1)).length) := by
      rw [hdel, if_neg hcase]
    have hc1 : (delete_by_source c source_path).1 =
        c.filter (fun e => ¬e.2.metadata.source = pyNormpath source_path) := by
      rw [h1]
      refine List.filter_congr ?_
      intro e he
      exact decide_eq_decide.mpr (not_congr (hiff e he))
    have hc2 : (delete_by_source c source_path).2 =
        (c.filter (fun e => e.2.metadata.source = pyNormpath source_path)).length := by
      rw [h1]
      exact List.length_map _ _
    refine ⟨hc1, hc2, ?_, ?_, ?_⟩
    · rw [hc1, hc2]
      have hsplit := length_filter_split c
        (fun e => decide (e.2.metadata.source = pyNormpath source_path))
      simp only [decide_not]
      omega
    · intro dist qe k m hm
      obtain ⟨e, he, hem⟩ := colQuery_meta_mem dist qe k _ hm
      rw [hc1] at he
      have := (List.mem_filter.mp he).2
      rw [← hem]
      simpa using this
    · intro hall
      exfalso
      apply hcase
      rw [List.map_eq_nil_iff, List.filter_eq_nil_iff]
      intro e he
      simpa using hall e he

/-- C7: against an empty store the similarity search returns no ids
and `rag` returns the fixed "no relevant documents" sentinel (it does
not raise — the embedding is a total function); every successful answer
instead starts with the knowledge-base header, and no string with that
header equals the sentinel. -/
theorem C7_rag_empty_sentinel (dist : List ℚ → List ℚ → ℚ) (fshow : ℚ → String)
    (qe : List ℚ) (llm : String) :
    (colQuery dist qe 3 ([] : Collection)).ids = [] ∧
    rag dist fshow qe ([] : Collection) llm = ragSentinel ∧
    (∀ res : QueryResults, ∀ ans : String, res.ids ≠ [] →
      ∃ rest, rag_response fshow res ans = kbHeader ++ "\n" ++ rest) ∧
    (∀ rest : String, kbHeader ++ "\n" ++ rest ≠ ragSentinel) := by
  refine ⟨rfl, rfl, ?_, ?_⟩
  · intro res ans hne
    have hb : res.ids.isEmpty = false := by
      cases hres : res.ids with
      | nil => exact absurd hres hne
      | cons a t => rfl
    unfold rag_response
    rw [if_neg (by simp [hb])]
    exact ⟨_, rfl⟩
  · intro rest h
    have h2 : (kbHeader ++ "\n" ++ rest).data.head? = ragSentinel.data.head? := by
      rw [h]
    rw [show (kbHeader ++ "\n" ++ rest).data =
      (kbHeader ++ "\n").data ++ rest.data from rfl] at h2
    rw [show (((kbHeader ++ "\n").data ++ rest.data).head?) = some '📖' from rfl] at h2
    exact absurd h2 (by decide)

/-- Witness for C7 at a concrete query, result set and answer. -/
theorem C7_witness :
    rag (fun _ _ => 0) (fun _ => "0.5") [1] ([] : Collection) "ans" = ragSentinel ∧
    (QueryResults.mk ["id1"] ["t1"]
        [⟨"docs/a.txt", "a.txt", ".txt", "t", 2⟩] [some (1/2)]).ids ≠ [] ∧
    (∃ rest, rag_response (fun _ => "0.5")
        (QueryResults.mk ["id1"] ["t1"]
          [⟨"docs/a.txt", "a.txt", ".txt", "t", 2⟩] [some (1/2)]) "ans" =
      kbHeader ++ "\n" ++ rest) :=
  ⟨(C7_rag_empty_sentinel (fun _ _ => 0) (fun _ => "0.5") [1] "ans").2.1,
   by decide,
   (C7_rag_empty_sentinel (fun _ _ => 0) (fun _ => "0.5") [1] "ans").2.2.1
     (QueryResults.mk ["id1"] ["t1"]
       [⟨"docs/a.txt", "a.txt", ".txt", "t", 2⟩] [some (1/2)]) "ans" (by decide)⟩

theorem buildCitationsAux_filename_eq (rows : List RagRow) (seen : List String) :
    (buildCitationsAux rows seen).map (·.filename) =
      dedupFirstAux (rows.map (fun r => r.2.2.1.source_filename)) seen := by
  induction rows generalizing seen with
  | nil => rfl
  | cons row rest ih =>
    unfold buildCitationsAux dedupFirstAux
    by_cases hfn : row.2.2.1.source_filename ∈ seen
    · simp only [hfn, if_pos, List.map_cons]
      exact ih seen
    · rw [if_neg hfn]
      simp only [List.map_cons]
      rw [if_neg hfn]
      exact congrArg _ (ih _)

theorem mem_dedupFirstAux (l : List String) (seen : List String) (x : String) :
    x ∈ dedupFirstAux l seen ↔ x ∈ l ∧ x ∉ seen := by
  induction l generalizing seen with
  | nil => simp [dedupFirstAux]
  | cons y ys ih =>
    unfold dedupFirstAux
    by_cases hy : y ∈ seen
    · rw [if_pos hy, ih]
      constructor
      · rintro ⟨h1, h2⟩
        exact ⟨List.mem_cons_of_mem y h1, h2⟩
      · rintro ⟨h1, h2⟩
        rcases List.mem_cons.mp h1 with h3 | h3
        · exact absurd (h3 ▸ hy) h2
        · exact ⟨h3, h2⟩
    · rw [if_neg hy]
      constructor
      · intro hmem
        rcases List.mem_cons.mp hmem with h3 | h3
        · exact ⟨h3 ▸ List.mem_cons_self y ys, h3 ▸ hy⟩
        · have := (ih (y :: seen)).mp h3
          refine ⟨List.mem_cons_of_mem y this.1, fun hc => this.2 (List.mem_cons_of_mem y hc)⟩
      · rintro ⟨h1, h2⟩
        rcases List.mem_cons.mp h1 with h3 | h3
        · exact h3 ▸ List.mem_cons_self y _
        · by_cases hxy : x = y
          · exact hxy ▸ List.mem_cons_self y _
          · refine List.mem_cons_of_mem y ((ih (y :: seen)).mpr ⟨h3, ?_⟩)
            intro hc
            rcases List.mem_cons.mp hc with h4 | h4
            · exact hxy h4
            · exact h2 h4

theorem dedupFirstAux_nodup (l : List String) (seen : List String) :
    (dedupFirstAux l seen).Nodup := by
  induction l generalizing seen with
  | nil => exact List.nodup_nil
  | cons y ys ih =>
    unfold dedupFirstAux
    by_cases hy : y ∈ seen
    · rw [if_pos hy]
      exact ih seen
    · rw [if_neg hy]
      refine List.nodup_cons.mpr ⟨?_, ih (y :: seen)⟩
      intro hc
      exact ((mem_dedupFirstAux ys (y :: seen) y).mp hc).2 (List.mem_cons_self y seen)

theorem buildCitationsAux_spec (rows : List RagRow) (seen : List String) :
    ∀ c ∈ buildCitationsAux rows seen,
      c.filename ∉ seen ∧
      ∃ row, rows.find? (fun r => r.2.2.1.source_filename == c.filename) = some row ∧
        c.filename = row.2.2.1.source_filename ∧
        c.path = row.2.2.1.source ∧
        c.blob_url = docBlobUrl c.filename ∧
        c.similarity_score = row.2.2.2.map (fun d => round3 (1 - d)) := by
  induction rows generalizing seen with
  | nil => intro c hc; cases hc
  | cons row rest ih =>
    intro c hc
    unfold buildCitationsAux at hc
    by_cases hfn : row.2.2.1.source_filename ∈ seen
    · rw [if_pos hfn] at hc
      obtain ⟨hns, row2, hfind, hfn2, hpath, hurl, hsim⟩ := ih seen c hc
      have hne : ¬(row.2.2.1.source_filename == c.filename) = true := by
        intro hb
        exact hns ((eq_of_beq hb).symm ▸ hfn)
      have hstep : List.find? (fun r => r.2.2.1.source_filename == c.filename)
            (row :: rest) =
          List.find? (fun r => r.2.2.1.source_filename == c.filename) rest :=
        List.find?_cons_of_neg rest hne
      exact ⟨hns, row2, by rw [hstep]; exact hfind, hfn2, hpath, hurl, hsim⟩
    · rw [if_neg hfn] at hc
      rcases List.mem_cons.mp hc with hc1 | hc1
      · subst hc1
        refine ⟨hfn, row, ?_, rfl, rfl, rfl, rfl⟩
        exact List.find?_cons_of_pos rest (by simp)
      · obtain ⟨hns, row2, hfind, hfn2, hpath, hurl, hsim⟩ :=
          ih (row.2.2.1.source_filename :: seen) c hc1
        have hcne : c.filename ≠ row.2.2.1.source_filename := by
          intro he
          exact hns (he ▸ List.mem_cons_self _ seen)
        have hne : ¬(row.2.2.1.source_filename == c.filename) = true := by
          intro hb
          exact hcne (eq_of_beq hb).symm
        have hstep : List.find? (fun r => r.2.2.1.source_filename == c.filename)
              (row :: rest) =
            List.find? (fun r => r.2.2.1.source_filename == c.filename) rest :=
          List.find?_cons_of_neg rest hne
        exact ⟨fun hse => hns (List.mem_cons_of_mem _ hse), row2,
          by rw [hstep]; exact hfind, hfn2, hpath, hurl, hsim⟩

/-- C8: the `rag` citation loop keeps exactly one citation per source
filename (first occurrence wins, so the citation list is
duplicate-free and carries precisely the retrieved filenames), each
citation's similarity is `round(1 - distance, 3)` of the first
retrieved chunk of that filename (`N/A` when the distance is missing),
and each citation renders as a markdown link to the blob URL derived
from the configured storage account, container and filename. -/
theorem C8_rag_citations (rows : List RagRow) :
    ((buildCitations rows).map (·.filename)).Nodup ∧
    (buildCitations rows).map (·.filename) =
      dedupFirst (rows.map (fun r => r.2.2.1.source_filename)) ∧
    (∀ fn : String, fn ∈ (buildCitations rows).map (·.filename) ↔
      fn ∈ rows.map (fun r => r.2.2.1.source_filename)) ∧
    (∀ c ∈ buildCitations rows,
      ∃ row, rows.find? (fun r => r.2.2.1.source_filename == c.filename) = some row ∧
        c.similarity_score = row.2.2.2.map (fun d => round3 (1 - d)) ∧
        c.blob_url = docBlobUrl c.filename ∧
        c.path = row.2.2.1.source) ∧
    (∀ fshow : ℚ → String, ∀ c ∈ buildCitations rows,
      citationLine fshow c =
        "• [" ++ c.filename ++ "](" ++ docBlobUrl c.filename ++ ") (Similarity: " ++
          (match c.similarity_score with
           | some q => fshow q
           | none => "N/A") ++ ")") := by
  have hmapeq := buildCitationsAux_filename_eq rows []
  refine ⟨?_, hmapeq, ?_, ?_, ?_⟩
  · rw [buildCitations, hmapeq]
    exact dedupFirstAux_nodup _ []
  · intro fn
    rw [buildCitations, hmapeq, mem_dedupFirstAux]
    simp
  · intro c hc
    obtain ⟨_, row, hfind, _, hpath, hurl, hsim⟩ := buildCitationsAux_spec rows [] c hc
    exact ⟨row, hfind, hsim, hurl, hpath⟩
  · intro fshow c hc
    obtain ⟨_, row, _, _, _, hurl, _⟩ := buildCitationsAux_spec rows [] c hc
    rw [citationLine, hurl]

/-- Witness for C8 at three retrieved rows, two of which share a
source filename: the shared filename yields exactly one citation. -/
theorem C8_witness :
    (⟨"a.pdf", "docs/a.pdf", docBlobUrl "a.pdf", none⟩ : Citation) ∈
      buildCitations
        ([("id1", "t1", ⟨"docs/a.pdf", "a.pdf", ".pdf", "t", 1⟩, none),
          ("id2", "t2", ⟨"docs/a.pdf", "a.pdf", ".pdf", "t", 1⟩, none),
          ("id3", "t3", ⟨"docs/b.pdf", "b.pdf", ".pdf", "t", 1⟩, none)] :
          List RagRow) ∧
    ((buildCitations
        ([("id1", "t1", ⟨"docs/a.pdf", "a.pdf", ".pdf", "t", 1⟩, none),
          ("id2", "t2", ⟨"docs/a.pdf", "a.pdf", ".pdf", "t", 1⟩, none),
          ("id3", "t3", ⟨"docs/b.pdf", "b.pdf", ".pdf", "t", 1⟩, none)] :
          List RagRow)).map (·.filename)).Nodup ∧
    ∃ row, List.find? (fun r => r.2.2.1.source_filename ==
        (⟨"a.pdf", "docs/a.pdf", docBlobUrl "a.pdf", none⟩ : Citation).filename)
        ([("id1", "t1", ⟨"docs/a.pdf", "a.pdf", ".pdf", "t", 1⟩, none),
          ("id2", "t2", ⟨"docs/a.pdf", "a.pdf", ".pdf", "t", 1⟩, none),
          ("id3", "t3", ⟨"docs/b.pdf", "b.pdf", ".pdf", "t", 1⟩, none)] :
          List RagRow) = some row ∧
      (⟨"a.pdf", "docs/a.pdf", docBlobUrl "a.pdf", none⟩ :
          Citation).similarity_score = row.2.2.2.map (fun d => round3 (1 - d)) ∧
      (⟨"a.pdf", "docs/a.pdf", docBlobUrl "a.pdf", none⟩ : Citation).blob_url =
        docBlobUrl (⟨"a.pdf", "docs/a.pdf", docBlobUrl "a.pdf", none⟩ :
          Citation).filename ∧
      (⟨"a.pdf", "docs/a.pdf", docBlobUrl "a.pdf", none⟩ : Citation).path =
        row.2.2.1.source :=
  ⟨by decide,
   (C8_rag_citations
     [("id1", "t1", ⟨"docs/a.pdf", "a.pdf", ".pdf", "t", 1⟩, none),
      ("id2", "t2", ⟨"docs/a.pdf", "a.pdf", ".pdf", "t", 1⟩, none),
      ("id3", "t3", ⟨"docs/b.pdf", "b.pdf", ".pdf", "t", 1⟩, none)]).1,
   (C8_rag_citations
     [("id1", "t1", ⟨"docs/a.pdf", "a.pdf", ".pdf", "t", 1⟩, none),
      ("id2", "t2", ⟨"docs/a.pdf", "a.pdf", ".pdf", "t", 1⟩, none),
      ("id3", "t3", ⟨"docs/b.pdf", "b.pdf", ".pdf", "t", 1⟩, none)]).2.2.2.1
     ⟨"a.pdf", "docs/a.pdf", docBlobUrl "a.pdf", none⟩ (by decide)⟩

/-- Witness for C9 at a concrete two-record store. -/
theorem C9_witness :
    (colKeys sampleStore).Nodup ∧
    (delete_by_source sampleStore "docs/a.txt").1 =
      sampleStore.filter (fun e => ¬e.2.metadata.source = pyNormpath "docs/a.txt") ∧
    (delete_by_source sampleStore "docs/a.txt").2 =
      (sampleStore.filter (fun e => e.2.metadata.source = pyNormpath "docs/a.txt")).length :=
  ⟨by decide, (C9_delete_by_source sampleStore "docs/a.txt" (by decide)).1,
   ((C9_delete_by_source sampleStore "docs/a.txt" (by decide)).2).1⟩

theorem mem_putBlob_self (ns : List String) (name : String) :
    name ∈ putBlob ns name := by
  unfold putBlob
  split
  · assumption
  · simp

/-- C3 counterexample: with `REPORT.PDF` in the accepted namespace,
uploading `report.pdf` is not flagged by the code (the check is a
case-sensitive substring test), although the claim's case- and
suffix-insensitive base-name comparison flags it, and `handle_upload`
accordingly routes the file to `accepted`. -/
theorem C3_counterexample :
    check_file_exists_in_accepted (.ok (["REPORT.PDF"], ["REPORT.PDF"])) "report.pdf"
      = false ∧
    claimDuplicate "report.pdf" ["REPORT.PDF"] = true ∧
    (handle_uploaded_file ⟨[], ["REPORT.PDF"], []⟩ "report.pdf"
        (acceptedListing ⟨[], ["REPORT.PDF"], []⟩) (true, "ok", 1)).2.2.2 =
      "accepted" := by
  refine ⟨by decide, by decide, by decide⟩

/-- C3 (amended): `handle_upload` flags an upload as a duplicate
exactly when some entry of the accepted namespace contains, as a
case-sensitive substring, the uploaded filename with every
`_duplicate` marker removed and surrounding whitespace stripped; in
particular uploading `report.pdf` after `report.pdf` is rejected under
the name `report_duplicate.pdf`, while `report_v2.pdf` after
`report.pdf` is accepted and both files end up in the accepted
namespace. -/
theorem C3_duplicate_check (bs : BlobStore) (filename : String)
    (proc : ProcessResult) :
    ((handle_uploaded_file bs filename (acceptedListing bs) proc).2.2.2 =
        "rejected" ↔
      bs.accepted.any
        (fun entry => pyIn (pyStrip (pyReplace filename "_duplicate" "")) entry)
        = true) ∧
    (handle_uploaded_file ⟨[], ["report.pdf"], []⟩ "report.pdf"
        (acceptedListing ⟨[], ["report.pdf"], []⟩) proc).2 =
      (false,
       "❌ Duplicate file detected! Moved to rejected container as \x27report_duplicate.pdf\x27",
       "rejected") ∧
    "report_duplicate.pdf" ∈
      (handle_uploaded_file ⟨[], ["report.pdf"], []⟩ "report.pdf"
        (acceptedListing ⟨[], ["report.pdf"], []⟩) proc).1.rejected ∧
    "report.pdf" ∈
      (handle_uploaded_file ⟨[], ["report.pdf"], []⟩ "report.pdf"
        (acceptedListing ⟨[], ["report.pdf"], []⟩) proc).1.accepted ∧
    (handle_uploaded_file ⟨[], ["report.pdf"], []⟩ "report_v2.pdf"
        (acceptedListing ⟨[], ["report.pdf"], []⟩) proc).2.2.2 = "accepted" ∧
    "report.pdf" ∈
      (handle_uploaded_file ⟨[], ["report.pdf"], []⟩ "report_v2.pdf"
        (acceptedListing ⟨[], ["report.pdf"], []⟩) proc).1.accepted ∧
    "report_v2.pdf" ∈
      (handle_uploaded_file ⟨[], ["report.pdf"], []⟩ "report_v2.pdf"
        (acceptedListing ⟨[], ["report.pdf"], []⟩) proc).1.accepted := by
  rcases proc with ⟨ok, msg, n⟩
  refine ⟨?_, rfl, ?_, ?_, ?_, ?_, ?_⟩
  · cases hany : bs.accepted.any
        (fun entry => pyIn (pyStrip (pyReplace filename "_duplicate" "")) entry) <;>
      cases ok <;>
      simp [handle_uploaded_file, check_file_exists_in_accepted, acceptedListing,
        hany]
  · show "report_duplicate.pdf" ∈ (["report_duplicate.pdf"] : List String)
    exact List.mem_singleton.mpr rfl
  · show "report.pdf" ∈ (["report.pdf"] : List String)
    exact List.mem_singleton.mpr rfl
  · cases ok <;> rfl
  · cases ok <;>
      exact List.mem_cons_self "report.pdf" ["report_v2.pdf"]
  · cases ok <;>
      exact List.mem_cons_of_mem "report.pdf" (List.mem_singleton.mpr rfl)

/-- C6: a newly accepted upload whose indexing sub-pipeline reports
failure yields `success = false` with the message that names the kept
file ("File moved to accepted but RAG processing failed"), final
namespace `accepted`; the file stays in the accepted namespace and the
rejected namespace is untouched. -/
theorem C6_accepted_after_indexing_failure (bs : BlobStore)
    (filename : String) (names : List String) (msg : String) (n : Nat)
    (hnew : check_file_exists_in_accepted (.ok (names, names)) filename = false) :
    (handle_uploaded_file bs filename (.ok (names, names)) (false, msg, n)).2 =
      (false, "⚠️  File moved to accepted but RAG processing failed: " ++ msg,
       "accepted") ∧
    filename ∈
      (handle_uploaded_file bs filename (.ok (names, names)) (false, msg, n)).1.accepted ∧
    (handle_uploaded_file bs filename (.ok (names, names)) (false, msg, n)).1.rejected =
      bs.rejected := by
  refine ⟨?_, ?_, ?_⟩ <;>
    simp [handle_uploaded_file, hnew, move_blob_between_containers, upload_to_blob,
      setContainer, getContainer, mem_putBlob_self]

/-- Witness for C6 at a concrete upload into an empty store. -/
theorem C6_witness :
    check_file_exists_in_accepted (.ok (([] : List String), ([] : List String)))
      "notes.txt" = false ∧
    ((handle_uploaded_file ⟨[], [], []⟩ "notes.txt" (.ok ([], []))
        (false, "embedding failed", 0)).2 =
      (false,
       "⚠️  File moved to accepted but RAG processing failed: embedding failed",
       "accepted") ∧
    "notes.txt" ∈
      (handle_uploaded_file ⟨[], [], []⟩ "notes.txt" (.ok ([], []))
        (false, "embedding failed", 0)).1.accepted ∧
    (handle_uploaded_file ⟨[], [], []⟩ "notes.txt" (.ok ([], []))
        (false, "embedding failed", 0)).1.rejected = (⟨[], [], []⟩ : BlobStore).rejected) :=
  ⟨by decide,
   C6_accepted_after_indexing_failure ⟨[], [], []⟩ "notes.txt" [] "embedding failed" 0
     (by decide)⟩

/-- C10: when listing the accepted namespace raises,
`check_file_exists_in_accepted` swallows the exception and returns
`False`, so `handle_upload` treats the upload as new: whatever the
prior store contents (even with a same-named file already accepted),
the file is moved into the accepted namespace, the indexing
sub-pipeline's verdict is passed through as the success flag, and the
reported final namespace is `accepted`. -/
theorem C10_listing_error_treated_as_new (bs : BlobStore) (filename e : String)
    (proc : ProcessResult) :
    check_file_exists_in_accepted (.error e) filename = false ∧
    (handle_uploaded_file bs filename (.error e) proc).2.2.2 = "accepted" ∧
    (handle_uploaded_file bs filename (.error e) proc).2.1 = proc.1 ∧
    filename ∈ (handle_uploaded_file bs filename (.error e) proc).1.accepted := by
  rcases proc with ⟨ok, msg, n⟩
  refine ⟨rfl, ?_, ?_, ?_⟩ <;>
    cases ok <;>
    simp [handle_uploaded_file, check_file_exists_in_accepted,
      move_blob_between_containers, upload_to_blob, setContainer, getContainer,
      mem_putBlob_self]

set_option maxRecDepth 8192 in
/-- C4: at a raw answer that already carries a sources section in the
required format, the extraction does fill the formatted sources list,
but the answer body placed into the output is the original string —
the section-stripped answer is computed into a local that is never
read — so the returned string carries the sources section twice (the
claimed "exactly one sources section" fails): the citation link occurs
twice and the `Sources:` label occurs twice in the output. -/
theorem C4_duplicated_sources_section :
    findMarkdownLinks "[NASA](https://nasa.gov/sky)" =
      [("NASA", "https://nasa.gov/sky")] ∧
    grounding_format c4Ops (fun cs => cs) c4Answer [] =
      "🌐 **Web Search Answer:**\n\nThe sky is blue [1].\n\nSources:\n[NASA](https://nasa.gov/sky)\n\n---\n**📚 Sources:**\n[1] [NASA](https://nasa.gov/sky)" ∧
    pyCount (grounding_format c4Ops (fun cs => cs) c4Answer [])
      "](https://nasa.gov/sky)" = 2 ∧
    pyCount (grounding_format c4Ops (fun cs => cs) c4Answer []) "Sources:" = 2 ∧
    pyCount (pyStrip (c4Ops.subSources c4Answer)) "Sources:" = 0 := by
  refine ⟨by decide, by decide, by decide, by decide, by decide⟩

end Agentx
